import Mathlib

/-!
Verification of the LaserTag match-session engine.

The server keeps per-match sessions in memory: a roster of players
(keyed by username), optional teams, spectators, a countdown clock and
a persist-countdown for empty sessions.  Players report hits by color;
the hit arbitration engine mutates health and points and broadcasts
events.  The repository contains several overlapping variants of the
same server logic; where variants disagree, each variant is embedded
separately and named after its source location:

  - `handleHit`       part_001 lines 682-758 (same logic as server.js
                      lines 553-635): solo-style arbitration, shooter
                      heals +10, no friendly-fire check, weapon damage
                      default 0.
  - `handleHitTeam`   part_001 lines 899-985: team-aware arbitration,
                      shooter heals +5, friendly-fire check, weapon
                      damage default 6.
  - `startGameWs`     websocket.js lines 110-117 (no admin check).
  - `startGameTeam`   part_001 lines 1222-1236 (admin-gated).
  - `reapStep`        part_001 lines 517-536 (empty-session reaping).
  - `srvReapStep`     server.js lines 115-137 (its emptiness test reads
                      `Object.keys(session.spectators).length` for
                      truthiness instead of comparing with 0).

JavaScript objects are modelled as association lists in insertion
order (`Object.keys` enumeration order for string keys); JS numbers
holding integral game quantities are modelled as `Int`.  `Math.floor(x
/ 2)` coincides with Lean `Int` division by 2.  Mutation of a player
object is modelled as a keyed read-modify-write on the roster list,
which reproduces JS object aliasing (the target found by color and the
shooter are looked up again before every read).
-/

/-- Geographic position attached to a player, with a staleness
timestamp (`null` fields are `none`). -/
structure Position where
  latitude : Option Int
  longitude : Option Int
  lastUpdated : Option Int
deriving Repr, DecidableEq

/-- A player record as created by the join handler (part_001 lines
309-324): username, color, optional team, counters, points 50,
health 100, active powerups as a duration map, and a position. The
opaque websocket connection is not part of the domain state. -/
structure Player where
  username : String
  color : String
  teamId : Option String
  hitsGiven : Int
  hitsTaken : Int
  points : Int
  health : Int
  activePowerups : List (String × Int)
  position : Position
deriving Repr, DecidableEq

/-- A match session (app-data.js lines 64-80): mode, lifecycle state,
admin, clocks, roster, teams, spectator ids and latest camera frames. -/
structure Session where
  id : String
  mode : String
  state : String
  admin : Option String
  timeLeft : Int
  persistTime : Int
  players : List (String × Player)
  teams : List (String × List String)
  spectators : List String
  latestFrames : List (String × String)
deriving Repr, DecidableEq

/-- Summary row produced by `getPlayerList` (part_001 lines 620-632). -/
structure PlayerSummary where
  username : String
  color : String
  hitsGiven : Int
  hitsTaken : Int
  points : Int
  health : Int
deriving Repr, DecidableEq

/-- Member row of the team payload of the team-aware variant
(part_001 lines 848-861). -/
structure TeamPlayer where
  username : String
  color : String
  health : Int
  points : Int
deriving Repr, DecidableEq

/-- One team entry of the team payload (part_001 lines 848-861). -/
structure TeamEntry where
  teamId : String
  players : List TeamPlayer
deriving Repr, DecidableEq

/-- Row of the camera-frame batch relayed to spectators
(part_001 lines 386-393). -/
structure FrameEntry where
  username : String
  frame : String
  health : Int
deriving Repr, DecidableEq

/-- Row of the player-positions broadcast (part_001 lines 663-680). -/
structure PosEntry where
  username : String
  color : String
  latitude : Int
  longitude : Int
  lastUpdated : Option Int
deriving Repr, DecidableEq

/-- Outbound messages: a closed union of the JSON payloads the server
broadcasts or unicasts, one constructor per message shape. -/
inductive Msg where
  | playerJoin (username : String)
  | playerQuit (username : String)
  | playerListUpdate (admin : Option String) (playerList : Option (List PlayerSummary))
      (teams : Option (List TeamEntry))
  | startGame (playerList : List PlayerSummary) (teams : Option (List TeamEntry))
  | hit (player target weapon : String) (targetHealth shooterHealth : Int)
  | hitTeam (player target weapon : String)
      (targetHealth targetPoints shooterHealth shooterPoints : Int)
  | elimination (player weapon cause : String)
  | gameUpdate (timeLeft : Int) (players : List PlayerSummary)
  | powerup (username powerup : String) (duration : Int)
  | playerForfeited (player : String)
  | playerPositions (positions : List PosEntry)
  | cameraFramesBatch (frames : List FrameEntry)
  | sessionClose
deriving Repr, DecidableEq

/-- Lookup of `obj[k]` in an association list (first entry wins, as for
unique JS object keys). -/
def lookupP {α : Type} : List (String × α) → String → Option α
  | [], _ => none
  | (k, v) :: rest, u => if k = u then some v else lookupP rest u

/-- Assignment `obj[k] = v`: replace an existing key in place, or
append a new key at the end (JS string-key enumeration order). -/
def upsert {α : Type} : List (String × α) → String → α → List (String × α)
  | [], k, v => [(k, v)]
  | (k0, v0) :: rest, k, v =>
    if k0 = k then (k, v) :: rest else (k0, v0) :: upsert rest k v

/-- Read-modify-write of the entry stored at key `u`. -/
def updatePlayer : List (String × Player) → String → (Player → Player) → List (String × Player)
  | [], _, _ => []
  | (k, p) :: rest, u, f =>
    (if k = u then (k, f p) else (k, p)) :: updatePlayer rest u f

/-- Deletion `delete obj[k]`. -/
def eraseKey {α : Type} : List (String × α) → String → List (String × α)
  | [], _ => []
  | (k, v) :: rest, u =>
    if k = u then eraseKey rest u else (k, v) :: eraseKey rest u

/-- Duration of a powerup: `player.activePowerups[id]`, where a missing
entry reads as 0 (in JS `undefined > 0` is false, so reading the
missing entry as 0 gives the same guard outcomes). -/
def powerupVal (ap : List (String × Int)) (id : String) : Int :=
  (lookupP ap id).getD 0

/-- First player whose color matches the reported color, with its
username (part_001 lines 686-692 iterate the roster in insertion order
and break on the first match). -/
def findByColor : List (String × Player) → String → Option (String × Player)
  | [], _ => none
  | (u, p) :: rest, c => if p.color = c then some (u, p) else findByColor rest c

/-- Fallback player used to totalize roster reads; the source only
reads players that are present. -/
def defaultPlayer : Player :=
  { username := "", color := "", teamId := none, hitsGiven := 0, hitsTaken := 0,
    points := 0, health := 0, activePowerups := [],
    position := { latitude := none, longitude := none, lastUpdated := none } }

/-- Total roster read used inside the arbitration chain. -/
def getP (ps : List (String × Player)) (u : String) : Player :=
  (lookupP ps u).getD defaultPlayer

/-- Weapon point-damage table of part_001 lines 704-709:
`weaponDamages[weapon] ?? 0`. -/
def weaponDamage (weapon : String) : Int :=
  if weapon = "pistol" then 6
  else if weapon = "sniper" then 32
  else if weapon = "shotgun" then 12
  else 0

/-- Weapon point-damage table of the team-aware variant
(part_001 lines 931-936): `weaponDamages[weapon] ?? 6`. -/
def weaponDamageTeam (weapon : String) : Int :=
  if weapon = "pistol" then 6
  else if weapon = "sniper" then 32
  else if weapon = "shotgun" then 12
  else 6

/-- Roster summary `getPlayerList` (part_001 lines 620-632). -/
def getPlayerList (s : Session) : List PlayerSummary :=
  s.players.map fun kp =>
    { username := kp.1, color := kp.2.color, hitsGiven := kp.2.hitsGiven,
      hitsTaken := kp.2.hitsTaken, points := kp.2.points, health := kp.2.health }

/-- Team payload of the team-aware variant (part_001 lines 845-861):
members are resolved against the roster and missing entries dropped. -/
def getTeams (s : Session) : List TeamEntry :=
  if s.mode = "team" then
    s.teams.map fun te =>
      { teamId := te.1,
        players := te.2.filterMap fun u =>
          (lookupP s.players u).map fun p =>
            { username := p.username, color := p.color, health := p.health,
              points := p.points } }
  else []

/-- Hit arbitration of part_001 lines 682-758 (the same chain as
server.js lines 553-635): reject the sentinel color and eliminated
shooters, locate the target by color, reject invalid targets, apply
health damage (target max(0,h-10), shooter min(100,h+10)), apply point
damage (instakill zeroes the target and rewards half, otherwise the
weapon table with default 0), bump counters, broadcast a hit event and
any elimination events.  There is no friendly-fire check in this
variant.  The shooter is passed by username; arbitration only runs for
a connected (present) shooter. -/
def handleHit (s : Session) (shooterName color weapon : String) : Session × List Msg :=
  if color = "cyan" then (s, [])
  else
    match lookupP s.players shooterName with
    | none => (s, [])
    | some shooter =>
      if shooter.points ≤ 0 ∨ shooter.health ≤ 10 then (s, [])
      else
        match findByColor s.players color with
        | none => (s, [])
        | some (tname, target) =>
          if target.points ≤ 0 ∨ target.health ≤ 10 ∨
              0 < powerupVal target.activePowerups "invincibility" then (s, [])
          else
            let ps1 := updatePlayer s.players tname
              fun p => { p with health := max 0 (p.health - 10) }
            let ps2 := updatePlayer ps1 shooterName
              fun p => { p with health := min 100 (p.health + 10) }
            let ps3 :=
              if 0 < powerupVal (getP ps2 shooterName).activePowerups "instakill" then
                let currentPoints := (getP ps2 tname).points
                let psA := updatePlayer ps2 tname fun p => { p with points := 0 }
                updatePlayer psA shooterName
                  fun p => { p with points := p.points + currentPoints / 2 }
              else
                let damage := weaponDamage weapon
                let psA := updatePlayer ps2 tname
                  fun p => { p with points := max 0 (p.points - damage) }
                updatePlayer psA shooterName
                  fun p => { p with points := p.points + damage / 2 }
            let ps4 := updatePlayer ps3 shooterName
              fun p => { p with hitsGiven := p.hitsGiven + 1 }
            let ps5 := updatePlayer ps4 tname
              fun p => { p with hitsTaken := p.hitsTaken + 1 }
            let s1 := { s with players := ps5 }
            let msgs1 := [Msg.hit shooterName tname weapon (getP ps5 tname).health
              (getP ps5 shooterName).health]
            let msgs2 := if (getP ps5 tname).health ≤ 10 then
                msgs1 ++ [Msg.elimination tname weapon "health_depleted"] else msgs1
            let msgs3 := if (getP ps5 tname).points ≤ 0 then
                msgs2 ++ [Msg.elimination tname weapon "points_depleted"] else msgs2
            (s1, msgs3)

/-- Hit arbitration of the team-aware variant, part_001 lines 899-985:
two sentinel colors, a friendly-fire check after target validation,
shooter heals +5, weapon damage default 6, richer hit payload and a
single combined elimination event. -/
def handleHitTeam (s : Session) (shooterName color weapon : String) : Session × List Msg :=
  if color = "cyan" ∨ color = "aqua" then (s, [])
  else
    match lookupP s.players shooterName with
    | none => (s, [])
    | some shooter =>
      if shooter.points ≤ 0 ∨ shooter.health ≤ 10 then (s, [])
      else
        match findByColor s.players color with
        | none => (s, [])
        | some (tname, target) =>
          if target.points ≤ 0 ∨ target.health ≤ 10 ∨
              0 < powerupVal target.activePowerups "invincibility" then (s, [])
          else if s.mode = "team" ∧ shooter.teamId = target.teamId then (s, [])
          else
            let ps1 := updatePlayer s.players tname
              fun p => { p with health := max 0 (p.health - 10) }
            let ps2 := updatePlayer ps1 shooterName
              fun p => { p with health := min 100 (p.health + 5) }
            let ps3 :=
              if 0 < powerupVal (getP ps2 shooterName).activePowerups "instakill" then
                let currentPoints := (getP ps2 tname).points
                let psA := updatePlayer ps2 tname fun p => { p with points := 0 }
                updatePlayer psA shooterName
                  fun p => { p with points := p.points + currentPoints / 2 }
              else
                let damage := weaponDamageTeam weapon
                let psA := updatePlayer ps2 tname
                  fun p => { p with points := max 0 (p.points - damage) }
                updatePlayer psA shooterName
                  fun p => { p with points := p.points + damage / 2 }
            let ps4 := updatePlayer ps3 shooterName
              fun p => { p with hitsGiven := p.hitsGiven + 1 }
            let ps5 := updatePlayer ps4 tname
              fun p => { p with hitsTaken := p.hitsTaken + 1 }
            let s1 := { s with players := ps5 }
            let msgs1 := [Msg.hitTeam shooterName tname weapon (getP ps5 tname).health
              (getP ps5 tname).points (getP ps5 shooterName).health
              (getP ps5 shooterName).points]
            let tgt := getP ps5 tname
            let msgs2 :=
              if tgt.health ≤ 10 ∧ tgt.points ≤ 0 then
                msgs1 ++ [Msg.elimination tname weapon "health_and_points_depleted"]
              else if tgt.health ≤ 10 then
                msgs1 ++ [Msg.elimination tname weapon "health_depleted"]
              else if tgt.points ≤ 0 then
                msgs1 ++ [Msg.elimination tname weapon "points_depleted"]
              else msgs1
            (s1, msgs2)

/-- Persist ceiling `SESSION_PERSIST_TIME` (app-data.js line 1). -/
def SESSION_PERSIST_TIME : Int := 300

/-- Session creation, app-data.js lines 57-84: an invalid mode falls
back to solo; the session starts in the lobby with no admin, timeLeft
0, a full persist-countdown and empty collections (the teams map is
only used in team mode; it is represented as empty either way). -/
def createSession (id mode : String) : Session :=
  let mode1 := if mode ≠ "solo" ∧ mode ≠ "team" then "solo" else mode
  { id := id, mode := mode1, state := "lobby", admin := none, timeLeft := 0,
    persistTime := SESSION_PERSIST_TIME, players := [], teams := [],
    spectators := [], latestFrames := [] }

/-- Username collision loop of part_001 lines 304-307: while the
candidate collides, append one random digit and retry.  The random
draws are supplied as `ds` (exhausted draws fall back to 0) and the
loop is run with fuel; since every appended digit lengthens the
candidate, `taken.length + 1` iterations always suffice. -/
def uniqueName (taken : List String) : String → List Nat → Nat → String
  | u, _, 0 => u
  | u, ds, fuel + 1 =>
    if u ∈ taken then
      match ds with
      | [] => uniqueName taken (u ++ "0") [] fuel
      | d :: rest => uniqueName taken (u ++ toString (d % 10)) rest fuel
    else u

/-- Append a member to a team, creating the team entry on first use
(part_001 lines 326-329). -/
def addToTeam (teams : List (String × List String)) (t u : String) :
    List (String × List String) :=
  match lookupP teams t with
  | some members => upsert teams t (members ++ [u])
  | none => upsert teams t [u]

/-- Player join, part_001 lines 296-352: missing username, color or (in
team mode) team id closes the connection with no session mutation;
otherwise the collision loop picks the stored username, the player is
inserted with points 50 and health 100, team membership is recorded in
team mode, the first joiner of an adminless session becomes admin, and
a join notice plus a roster update are broadcast. -/
def joinPlayer (s : Session) (username color : String) (teamId : Option String)
    (ds : List Nat) : Session × List Msg :=
  if username = "" ∨ color = "" ∨ (s.mode = "team" ∧ teamId = none) then (s, [])
  else
    let u := uniqueName (s.players.map Prod.fst) username ds (s.players.length + 1)
    let newP : Player :=
      { username := u, color := color,
        teamId := if s.mode = "team" then teamId else none,
        hitsGiven := 0, hitsTaken := 0, points := 50, health := 100,
        activePowerups := [],
        position := { latitude := none, longitude := none, lastUpdated := none } }
    let players1 := upsert s.players u newP
    let teams1 :=
      if s.mode = "team" then
        match teamId with
        | some t => addToTeam s.teams t u
        | none => s.teams
      else s.teams
    let admin1 := if s.admin = none then some u else s.admin
    let s1 := { s with players := players1, teams := teams1, admin := admin1 }
    (s1, [Msg.playerJoin u,
          Msg.playerListUpdate s1.admin
            (if s1.mode = "team" then none else some (getPlayerList s1))
            (if s1.mode = "team" then some (getTeams s1) else none)])

/-- Player disconnect, part_001 lines 489-512 (and websocket.js lines
122-136): the player is deleted, team membership is filtered out and an
emptied team removed, and if the leaver was admin the admin becomes the
first remaining roster key or null.  The connection-scoped `teamId` of
the close handler equals the stored player's team. -/
def disconnectPlayer (s : Session) (u : String) : Session × List Msg :=
  let tid := match lookupP s.players u with
    | some p => p.teamId
    | none => none
  let players1 := eraseKey s.players u
  let teams1 :=
    if s.mode = "team" then
      match tid with
      | some t =>
        match lookupP s.teams t with
        | some members =>
          let members1 := members.filter (· ≠ u)
          if members1 = [] then eraseKey s.teams t else upsert s.teams t members1
        | none => s.teams
      | none => s.teams
    else s.teams
  let admin1 :=
    if s.admin = some u then
      match players1.map Prod.fst with
      | [] => none
      | k :: _ => some k
    else s.admin
  let s1 := { s with players := players1, teams := teams1, admin := admin1 }
  (s1, [Msg.playerQuit u,
        Msg.playerListUpdate s1.admin
          (if s1.mode = "team" then none else some (getPlayerList s1))
          (if s1.mode = "team" then some (getTeams s1) else none)])

/-- The startGame handler of websocket.js lines 110-117: any joined
sender flips the session to game state with 180 seconds on the clock
and broadcasts; the sender is never compared with the admin. -/
def startGameWs (s : Session) (sender : String) : Session × List Msg :=
  let s1 := { s with state := "game", timeLeft := 180 }
  (s1, [Msg.startGame (getPlayerList s1) none])

/-- The startGame case of the team-aware variant, part_001 lines
1222-1236: only the admin's message starts the game; anyone else is
ignored with no broadcast. -/
def startGameTeam (s : Session) (sender : String) : Session × List Msg :=
  if s.admin = some sender then
    let s1 := { s with state := "game", timeLeft := 180 }
    (s1, [Msg.startGame (getPlayerList s1)
      (if s1.mode = "team" then some (getTeams s1) else none)])
  else (s, [])

/-- Forfeit handler, part_001 lines 395-411: zero the caller's health
and points (the entry stays in the roster), broadcast a forfeit notice
and a roster update. -/
def forfeitPlayer (s : Session) (u : String) : Session × List Msg :=
  let ps := updatePlayer s.players u (fun p => { p with health := 0, points := 0 })
  let s1 := if (lookupP s.players u).isSome then { s with players := ps } else s
  (s1, [Msg.playerForfeited u,
        Msg.playerListUpdate s1.admin
          (if s1.mode = "team" then none else some (getPlayerList s1))
          (if s1.mode = "team" then some (getTeams s1) else none)])

/-- Camera-frame handler, part_001 lines 378-394: store the frame under
the sender, copy an attached health value verbatim onto the sender's
player, and relay the batch to spectators only.  A stored health of 0
is reported to spectators as 100 because the source reads it with
`session.players[user]?.health || 100`. -/
def handleCameraFrame (s : Session) (sender frame : String) (health : Option Int) :
    Session × List Msg :=
  let s1 := { s with latestFrames := upsert s.latestFrames sender frame }
  let s2 :=
    match health with
    | some h =>
      if (lookupP s1.players sender).isSome then
        { s1 with players := updatePlayer s1.players sender (fun p => { p with health := h }) }
      else s1
    | none => s1
  (s2, [Msg.cameraFramesBatch (s2.latestFrames.map fun kf =>
    { username := kf.1, frame := kf.2,
      health :=
        match lookupP s2.players kf.1 with
        | some p => if p.health = 0 then 100 else p.health
        | none => 100 })])

/-- Powerup expiry step run once per tick per player, part_001 lines
561-565: every entry with a positive remaining duration is decremented;
entries are never deleted from the map. -/
def tickPowerups : List (String × Int) → List (String × Int)
  | [] => []
  | (k, v) :: rest => (if 0 < v then (k, v - 1) else (k, v)) :: tickPowerups rest

/-- The three powerup kinds, in the order of the spawn table
(part_001 line 559). -/
def powerupName : Fin 3 → String
  | 0 => "invincibility"
  | 1 => "instakill"
  | 2 => "healthBoost"

/-- Powerup grant, part_001 lines 567-584: the body of the 6%-per-tick
spawn for one player, with the uniform random choice passed in.  A
health boost heals 30 capped at 100 immediately; the other two kinds
are stored with duration 10.  The notice is unicast to that player. -/
def grantPowerup (s : Session) (u : String) (choice : Fin 3) : Session × List Msg :=
  if (lookupP s.players u).isSome then
    let name := powerupName choice
    let psBoost := updatePlayer s.players u (fun p => { p with health := min 100 (p.health + 30) })
    let psStore := updatePlayer s.players u
      (fun p => { p with activePowerups := upsert p.activePowerups name 10 })
    let s1 :=
      if name = "healthBoost" then { s with players := psBoost }
      else { s with players := psStore }
    (s1, [Msg.powerup u name 10])
  else (s, [])

/-- Stale-position threshold: two minutes in milliseconds (part_001
line 541). -/
def staleThreshold : Int := 2 * 60 * 1000

/-- Position broadcast payload (part_001 lines 663-680): players with a
known position only. -/
def positionsPayload (s : Session) : List PosEntry :=
  s.players.filterMap fun kp =>
    match kp.2.position.latitude, kp.2.position.longitude with
    | some la, some lo =>
      some { username := kp.2.username, color := kp.2.color, latitude := la,
             longitude := lo, lastUpdated := kp.2.position.lastUpdated }
    | _, _ => none

/-- The in-game body of the per-second clock tick for one session,
part_001 lines 538-601: decrement timeLeft, zero the points of players
at or below the health threshold, clear stale positions, decrement
powerup durations, broadcast a game update (and positions every 5
seconds), and finish the game at zero.  The random powerup grants that
the source interleaves per player are modelled as separate
`grantPowerup` steps, which act on disjoint per-player state.  Outside
game state the tick body does nothing (session reaping is modelled
separately at the registry level). -/
def sessionTick (s : Session) (now : Int) : Session × List Msg :=
  if s.state = "game" then
    let s1 := { s with timeLeft := s.timeLeft - 1 }
    let ps1 := s1.players.map fun kp =>
      let p := kp.2
      let p1 := if p.health ≤ 10 ∧ 0 < p.points then { p with points := 0 } else p
      let p2 :=
        match p1.position.lastUpdated with
        | some t =>
          if staleThreshold < now - t then
            { p1 with position := { latitude := none, longitude := none, lastUpdated := none } }
          else p1
        | none => p1
      (kp.1, p2)
    let ps2 := ps1.map fun kp =>
      (kp.1, { kp.2 with activePowerups := tickPowerups kp.2.activePowerups })
    let s2 : Session := { s1 with players := ps2 }
    let posMsgs : List Msg :=
      if s2.timeLeft % 5 = 0 then [Msg.playerPositions (positionsPayload s2)] else []
    let s3 := if s2.timeLeft ≤ 0 then { s2 with state := "finished" } else s2
    (s3, posMsgs ++ [Msg.gameUpdate s2.timeLeft (getPlayerList s2)])
  else (s, [])

/-- Registry reap step of part_001 lines 517-536, for one session: with
zero players and zero spectators the persist-countdown decrements and
the session is destroyed at zero (`none`); otherwise the countdown
resets to its ceiling and the session survives. -/
def reapStep (s : Session) : Option Session :=
  if s.players = [] ∧ s.spectators = [] then
    let s1 := { s with persistTime := s.persistTime - 1 }
    if s1.persistTime ≤ 0 then none else some s1
  else some { s with persistTime := SESSION_PERSIST_TIME }

/-- Registry reap step of server.js lines 115-137, for one session.
Its guard is `Object.keys(session.players).length === 0 &&
Object.keys(session.spectators).length`, i.e. the spectator count is
used as a truthy value instead of being compared with zero: the
countdown runs only when the session has no players but DOES have
spectators, and a session with no players and no spectators resets its
countdown forever. -/
def srvReapStep (s : Session) : Option Session :=
  if s.players = [] ∧ s.spectators ≠ [] then
    let s1 := { s with persistTime := s.persistTime - 1 }
    if s1.persistTime ≤ 0 then none else some s1
  else some { s with persistTime := SESSION_PERSIST_TIME }

/-- A recipient connection in a fan-out call: its id and its websocket
`readyState` (1 is OPEN). -/
structure Conn where
  id : String
  readyState : Nat
deriving Repr, DecidableEq

/-- Guarded fan-out loop of part_001 lines 812-828 (`sendToClients` of
the team-aware variant): each connection is checked for
`readyState === WebSocket.OPEN` and skipped otherwise, so the loop
always runs to completion; the result is the list of recipients the
message was handed to. -/
def sendLoopGuarded : List Conn → List String
  | [] => []
  | c :: rest =>
    if c.readyState = 1 then c.id :: sendLoopGuarded rest else sendLoopGuarded rest

/-- Unguarded fan-out loop of websocket.js lines 157-165 (`sendToAll`)
and server.js lines 66-78: `connection.send(msg)` is called on every
connection with no readyState check.  The ws library's send on a
CLOSING or CLOSED socket without a callback returns without raising
(`sendAfterClose` routes the error to the absent callback), so the
loop always runs to completion.  The first component lists the
connections the send call is made on (all of them, in order); the
second lists the recipients the message actually reaches (the OPEN
ones). -/
def sendLoopUnguarded : List Conn → List String × List String
  | [] => ([], [])
  | c :: rest =>
    let r := sendLoopUnguarded rest
    (c.id :: r.1, if c.readyState = 1 then c.id :: r.2 else r.2)

/-- Guarded fan-out `sendToClients(session, message, sendToPlayers,
sendToSpectators)` over the two audiences (part_001 lines 812-828). -/
def sendToClientsGuarded (playerConns spectatorConns : List Conn)
    (toPlayers toSpectators : Bool) : List String :=
  (if toPlayers then sendLoopGuarded playerConns else []) ++
  (if toSpectators then sendLoopGuarded spectatorConns else [])

/-- Operations an active session processes, used to quantify over all
reachable session states.  `join` carries the random digit draws of
the collision loop, `grant` carries the uniform powerup draw, and
`tick` carries the wall-clock reading used by stale-position cleanup.
The `startGame` op uses the ungated handler shape shared by part_001
line 365 and websocket.js line 110 (sender recorded but not checked);
the gated variant is `startGameTeam`. -/
inductive Op where
  | join (username color : String) (teamId : Option String) (ds : List Nat)
  | disconnect (username : String)
  | startGame (sender : String)
  | hit (shooter color weapon : String)
  | forfeit (username : String)
  | grant (username : String) (choice : Fin 3)
  | tick (now : Int)

/-- State transition of one operation (broadcasts discarded). -/
def applyOp (s : Session) : Op → Session
  | Op.join u c t ds => (joinPlayer s u c t ds).1
  | Op.disconnect u => (disconnectPlayer s u).1
  | Op.startGame sender => (startGameWs s sender).1
  | Op.hit shooter color weapon => (handleHit s shooter color weapon).1
  | Op.forfeit u => (forfeitPlayer s u).1
  | Op.grant u choice => (grantPowerup s u choice).1
  | Op.tick now => (sessionTick s now).1

/-- Run a sequence of operations from an initial session. -/
def runOps (s : Session) : List Op → Session
  | [] => s
  | op :: rest => runOps (applyOp s op) rest

/-! Helper lemmas about the association-list primitives. -/

theorem lookupP_updatePlayer (ps : List (String × Player)) (u : String)
    (f : Player → Player) (v : String) :
    lookupP (updatePlayer ps u f) v =
      if u = v then (lookupP ps v).map f else lookupP ps v := by
  induction ps with
  | nil => by_cases h : u = v <;> simp [lookupP, updatePlayer, h]
  | cons kp rest ih =>
    obtain ⟨k, p⟩ := kp
    rw [updatePlayer]
    by_cases hku : k = u
    · rw [if_pos hku]
      by_cases hkv : k = v
      · have huv : u = v := hku.symm.trans hkv
        simp [lookupP, hkv, huv]
      · have huv : ¬u = v := fun h => hkv (hku.trans h)
        simp [lookupP, hkv, huv, ih]
    · rw [if_neg hku]
      by_cases hkv : k = v
      · have huv : ¬u = v := fun h => hku (hkv.trans h.symm)
        simp [lookupP, hkv, huv]
      · simp [lookupP, hkv, ih]

theorem keys_updatePlayer (ps : List (String × Player)) (u : String) (f : Player → Player) :
    (updatePlayer ps u f).map Prod.fst = ps.map Prod.fst := by
  induction ps with
  | nil => rfl
  | cons kp rest ih =>
    obtain ⟨k, p⟩ := kp
    rw [updatePlayer]
    by_cases hku : k = u
    · rw [if_pos hku]; simp [ih]
    · rw [if_neg hku]; simp [ih]

theorem mem_of_lookupP {α : Type} {ps : List (String × α)} {u : String} {p : α}
    (h : lookupP ps u = some p) : (u, p) ∈ ps := by
  induction ps with
  | nil => simp [lookupP] at h
  | cons kp rest ih =>
    obtain ⟨k, q⟩ := kp
    rw [lookupP] at h
    by_cases hk : k = u
    · rw [if_pos hk] at h
      obtain rfl := Option.some_inj.mp h
      rw [hk]
      exact List.mem_cons_self _ _
    · rw [if_neg hk] at h
      exact List.mem_cons_of_mem _ (ih h)

theorem lookupP_upsert {α : Type} (ps : List (String × α)) (k : String) (v : α)
    (w : String) :
    lookupP (upsert ps k v) w = if k = w then some v else lookupP ps w := by
  induction ps with
  | nil => by_cases h : k = w <;> simp [lookupP, upsert, h]
  | cons kp rest ih =>
    obtain ⟨k0, v0⟩ := kp
    rw [upsert]
    by_cases h0 : k0 = k
    · rw [if_pos h0]
      by_cases hw : k = w
      · simp [lookupP, hw]
      · have h0w : ¬k0 = w := fun h => hw (h0.symm.trans h)
        simp [lookupP, hw, h0w]
    · rw [if_neg h0]
      by_cases h0w : k0 = w
      · have hw : ¬k = w := fun h => h0 (h0w.trans h.symm)
        simp [lookupP, h0w, hw]
      · simp [lookupP, h0w, ih]

theorem keys_upsert_mem_self {α : Type} (ps : List (String × α)) (k : String) (v : α) :
    k ∈ (upsert ps k v).map Prod.fst := by
  induction ps with
  | nil => simp [upsert]
  | cons kp rest ih =>
    obtain ⟨k0, v0⟩ := kp
    rw [upsert]
    by_cases h0 : k0 = k
    · rw [if_pos h0]; simp
    · rw [if_neg h0]; simp [ih]

theorem keys_upsert_mem_of_mem {α : Type} (ps : List (String × α)) (k : String) (v : α)
    (w : String) (hw : w ∈ ps.map Prod.fst) : w ∈ (upsert ps k v).map Prod.fst := by
  induction ps with
  | nil => simp at hw
  | cons kp rest ih =>
    obtain ⟨k0, v0⟩ := kp
    rw [upsert]
    by_cases h0 : k0 = k
    · rw [if_pos h0]
      simp only [List.map_cons, List.mem_cons] at hw ⊢
      rcases hw with hw | hw
      · left; rw [← h0]; exact hw
      · right; exact hw
    · rw [if_neg h0]
      simp only [List.map_cons, List.mem_cons] at hw ⊢
      rcases hw with hw | hw
      · left; exact hw
      · right; exact ih hw

theorem upsert_ne_nil {α : Type} (ps : List (String × α)) (k : String) (v : α) :
    upsert ps k v ≠ [] := by
  cases ps with
  | nil => simp [upsert]
  | cons kp rest =>
    obtain ⟨k0, v0⟩ := kp
    rw [upsert]
    by_cases h0 : k0 = k
    · rw [if_pos h0]; simp
    · rw [if_neg h0]; simp

theorem keys_eraseKey_mem {α : Type} (ps : List (String × α)) (u w : String)
    (hw : w ∈ ps.map Prod.fst) (hne : w ≠ u) : w ∈ (eraseKey ps u).map Prod.fst := by
  induction ps with
  | nil => simp at hw
  | cons kp rest ih =>
    obtain ⟨k, v⟩ := kp
    rw [eraseKey]
    simp only [List.map_cons, List.mem_cons] at hw
    by_cases hk : k = u
    · rw [if_pos hk]
      rcases hw with hw | hw
      · exact absurd (hw.trans hk) hne
      · exact ih hw
    · rw [if_neg hk]
      simp only [List.map_cons, List.mem_cons]
      rcases hw with hw | hw
      · left; exact hw
      · right; exact ih hw

theorem mem_keys_nonempty {α : Type} {ps : List (String × α)} {w : String}
    (hw : w ∈ ps.map Prod.fst) : ps ≠ [] := by
  cases ps with
  | nil => simp at hw
  | cons kp rest => simp

/-! Health and points bounds. -/

/-- Bounds asserted by the spec: health in [0,100], points nonnegative. -/
def playerOK (p : Player) : Prop :=
  0 ≤ p.health ∧ p.health ≤ 100 ∧ 0 ≤ p.points

/-- Every player of a roster satisfies the bounds. -/
def playersOK (ps : List (String × Player)) : Prop :=
  ∀ kp ∈ ps, playerOK kp.2

/-- Session-level form of the spec invariant. -/
def healthPointsInv (s : Session) : Prop :=
  playersOK s.players

theorem playersOK_nil : playersOK [] := by
  intro kp h
  simp at h

theorem playersOK_updatePlayer {ps : List (String × Player)} {u : String}
    {f : Player → Player} (hf : ∀ p, playerOK p → playerOK (f p))
    (h : playersOK ps) : playersOK (updatePlayer ps u f) := by
  induction ps with
  | nil => exact playersOK_nil
  | cons kp rest ih =>
    obtain ⟨k, p⟩ := kp
    have hp : playerOK p := h (k, p) (List.mem_cons_self _ _)
    have hrest : playersOK rest := fun kq hq => h kq (List.mem_cons_of_mem _ hq)
    rw [updatePlayer]
    intro kq hq
    rcases List.mem_cons.mp hq with hq | hq
    · by_cases hk : k = u
      · rw [if_pos hk] at hq
        rw [hq]
        exact hf p hp
      · rw [if_neg hk] at hq
        rw [hq]
        exact hp
    · exact ih hrest kq hq

theorem playersOK_upsert {ps : List (String × Player)} {u : String} {v : Player}
    (hv : playerOK v) (h : playersOK ps) : playersOK (upsert ps u v) := by
  induction ps with
  | nil =>
    intro kq hq
    rw [upsert] at hq
    rcases List.mem_cons.mp hq with hq | hq
    · rw [hq]; exact hv
    · simp at hq
  | cons kp rest ih =>
    obtain ⟨k, p⟩ := kp
    have hp : playerOK p := h (k, p) (List.mem_cons_self _ _)
    have hrest : playersOK rest := fun kq hq => h kq (List.mem_cons_of_mem _ hq)
    rw [upsert]
    by_cases hk : k = u
    · rw [if_pos hk]
      intro kq hq
      rcases List.mem_cons.mp hq with hq | hq
      · rw [hq]; exact hv
      · exact hrest kq hq
    · rw [if_neg hk]
      intro kq hq
      rcases List.mem_cons.mp hq with hq | hq
      · rw [hq]; exact hp
      · exact ih hrest kq hq

theorem playersOK_eraseKey {ps : List (String × Player)} {u : String}
    (h : playersOK ps) : playersOK (eraseKey ps u) := by
  induction ps with
  | nil => exact playersOK_nil
  | cons kp rest ih =>
    obtain ⟨k, p⟩ := kp
    have hp : playerOK p := h (k, p) (List.mem_cons_self _ _)
    have hrest : playersOK rest := fun kq hq => h kq (List.mem_cons_of_mem _ hq)
    rw [eraseKey]
    by_cases hk : k = u
    · rw [if_pos hk]
      exact ih hrest
    · rw [if_neg hk]
      intro kq hq
      rcases List.mem_cons.mp hq with hq | hq
      · rw [hq]; exact hp
      · exact ih hrest kq hq

theorem playersOK_mapSnd (g : Player → Player) (ps : List (String × Player))
    (hg : ∀ p, playerOK p → playerOK (g p)) (h : playersOK ps) :
    playersOK (ps.map fun kp => (kp.1, g kp.2)) := by
  intro kq hq
  rcases List.mem_map.mp hq with ⟨kp, hmem, heq⟩
  rw [← heq]
  exact hg kp.2 (h kp hmem)

theorem getP_points_nonneg {ps : List (String × Player)} (u : String)
    (h : playersOK ps) : 0 ≤ (getP ps u).points := by
  unfold getP
  cases hl : lookupP ps u with
  | none => simp [defaultPlayer]
  | some p =>
    have := h (u, p) (mem_of_lookupP hl)
    simpa using this.2.2

theorem weaponDamage_nonneg (w : String) : 0 ≤ weaponDamage w := by
  unfold weaponDamage
  split
  · norm_num
  · split
    · norm_num
    · split <;> norm_num

theorem weaponDamageTeam_nonneg (w : String) : 0 ≤ weaponDamageTeam w := by
  unfold weaponDamageTeam
  split
  · norm_num
  · split
    · norm_num
    · split <;> norm_num

theorem half_nonneg (a : Int) (h : 0 ≤ a) : 0 ≤ a / 2 :=
  Int.ediv_nonneg h (by norm_num)

theorem pOK_damage10 (p : Player) (hp : playerOK p) :
    playerOK { p with health := max 0 (p.health - 10) } := by
  obtain ⟨a, b, d⟩ := hp
  refine ⟨?_, ?_, ?_⟩ <;> dsimp only <;> omega

theorem pOK_heal10 (p : Player) (hp : playerOK p) :
    playerOK { p with health := min 100 (p.health + 10) } := by
  obtain ⟨a, b, d⟩ := hp
  refine ⟨?_, ?_, ?_⟩ <;> dsimp only <;> omega

theorem pOK_heal5 (p : Player) (hp : playerOK p) :
    playerOK { p with health := min 100 (p.health + 5) } := by
  obtain ⟨a, b, d⟩ := hp
  refine ⟨?_, ?_, ?_⟩ <;> dsimp only <;> omega

theorem pOK_heal30 (p : Player) (hp : playerOK p) :
    playerOK { p with health := min 100 (p.health + 30) } := by
  obtain ⟨a, b, d⟩ := hp
  refine ⟨?_, ?_, ?_⟩ <;> dsimp only <;> omega

theorem pOK_zeroPoints (p : Player) (hp : playerOK p) :
    playerOK { p with points := 0 } := by
  obtain ⟨a, b, d⟩ := hp
  refine ⟨?_, ?_, ?_⟩ <;> dsimp only <;> omega

theorem pOK_addHalf (c : Int) (hc : 0 ≤ c) (p : Player) (hp : playerOK p) :
    playerOK { p with points := p.points + c / 2 } := by
  obtain ⟨a, b, d⟩ := hp
  have hc2 := half_nonneg c hc
  refine ⟨?_, ?_, ?_⟩ <;> dsimp only <;> omega

theorem pOK_subDamage (dmg : Int) (p : Player) (hp : playerOK p) :
    playerOK { p with points := max 0 (p.points - dmg) } := by
  obtain ⟨a, b, d⟩ := hp
  refine ⟨?_, ?_, ?_⟩ <;> dsimp only <;> omega

theorem pOK_given (p : Player) (hp : playerOK p) :
    playerOK { p with hitsGiven := p.hitsGiven + 1 } := hp

theorem pOK_taken (p : Player) (hp : playerOK p) :
    playerOK { p with hitsTaken := p.hitsTaken + 1 } := hp

/-- Hit arbitration preserves the health and points bounds. -/
theorem playersOK_handleHit (s : Session) (n c w : String)
    (h : playersOK s.players) : playersOK (handleHit s n c w).1.players := by
  unfold handleHit
  split
  · exact h
  · split
    · exact h
    · split
      · exact h
      · split
        · exact h
        · split
          · exact h
          · rename_i tname target heq hv
            have hps2 : playersOK (updatePlayer (updatePlayer s.players tname
                (fun p => { p with health := max 0 (p.health - 10) })) n
                (fun p => { p with health := min 100 (p.health + 10) })) :=
              playersOK_updatePlayer pOK_heal10 (playersOK_updatePlayer pOK_damage10 h)
            refine playersOK_updatePlayer pOK_taken (playersOK_updatePlayer pOK_given ?_)
            split
            · exact playersOK_updatePlayer
                (pOK_addHalf _ (getP_points_nonneg tname hps2))
                (playersOK_updatePlayer pOK_zeroPoints hps2)
            · exact playersOK_updatePlayer
                (pOK_addHalf _ (weaponDamage_nonneg w))
                (playersOK_updatePlayer (pOK_subDamage _) hps2)

theorem pOK_new (u c : String) (t : Option String) :
    playerOK { username := u, color := c, teamId := t, hitsGiven := 0, hitsTaken := 0,
               points := 50, health := 100, activePowerups := [],
               position := { latitude := none, longitude := none, lastUpdated := none } } := by
  refine ⟨?_, ?_, ?_⟩ <;> dsimp only <;> norm_num

theorem pOK_forfeit (p : Player) (hp : playerOK p) :
    playerOK { p with health := 0, points := 0 } := by
  refine ⟨?_, ?_, ?_⟩ <;> dsimp only <;> norm_num

theorem pOK_powerups (ap : List (String × Int)) (p : Player) (hp : playerOK p) :
    playerOK { p with activePowerups := ap } := hp

theorem playersOK_joinPlayer (s : Session) (u c : String) (t : Option String)
    (ds : List Nat) (h : playersOK s.players) :
    playersOK (joinPlayer s u c t ds).1.players := by
  unfold joinPlayer
  split
  · exact h
  · exact playersOK_upsert (pOK_new _ _ _) h

theorem playersOK_disconnectPlayer (s : Session) (u : String)
    (h : playersOK s.players) : playersOK (disconnectPlayer s u).1.players := by
  unfold disconnectPlayer
  exact playersOK_eraseKey h

theorem playersOK_forfeitPlayer (s : Session) (u : String)
    (h : playersOK s.players) : playersOK (forfeitPlayer s u).1.players := by
  unfold forfeitPlayer
  dsimp only
  split
  · exact playersOK_updatePlayer pOK_forfeit h
  · exact h

theorem playersOK_grantPowerup (s : Session) (u : String) (choice : Fin 3)
    (h : playersOK s.players) : playersOK (grantPowerup s u choice).1.players := by
  unfold grantPowerup
  split
  · dsimp only
    split
    · exact playersOK_updatePlayer pOK_heal30 h
    · exact playersOK_updatePlayer (fun p hp => pOK_powerups _ p hp) h
  · exact h

theorem playersOK_sessionTick (s : Session) (now : Int)
    (h : playersOK s.players) : playersOK (sessionTick s now).1.players := by
  unfold sessionTick
  split
  · dsimp only
    split
    all_goals {
      intro kq hq
      rcases List.mem_map.mp hq with ⟨kp1, h1, e2⟩
      rcases List.mem_map.mp h1 with ⟨kp0, h0, e1⟩
      obtain ⟨a, b, d⟩ := h kp0 h0
      rw [← e2, ← e1]
      dsimp only
      split
      all_goals
        split <;>
          (try split) <;>
          exact ⟨by dsimp only <;> omega, by dsimp only <;> omega, by dsimp only <;> omega⟩
    }
  · exact h

theorem playersOK_startGameWs (s : Session) (u : String)
    (h : playersOK s.players) : playersOK (startGameWs s u).1.players := h

theorem healthPointsInv_applyOp (s : Session) (op : Op)
    (h : healthPointsInv s) : healthPointsInv (applyOp s op) := by
  cases op with
  | join u c t ds => exact playersOK_joinPlayer s u c t ds h
  | disconnect u => exact playersOK_disconnectPlayer s u h
  | startGame u => exact playersOK_startGameWs s u h
  | hit a b c => exact playersOK_handleHit s a b c h
  | forfeit u => exact playersOK_forfeitPlayer s u h
  | grant u ch => exact playersOK_grantPowerup s u ch h
  | tick now => exact playersOK_sessionTick s now h

theorem healthPointsInv_runOps (s : Session) (ops : List Op)
    (h : healthPointsInv s) : healthPointsInv (runOps s ops) := by
  induction ops generalizing s with
  | nil => exact h
  | cons op rest ih => exact ih _ (healthPointsInv_applyOp s op h)

theorem healthPointsInv_createSession (id mode : String) :
    healthPointsInv (createSession id mode) := by
  unfold createSession healthPointsInv
  split <;> exact playersOK_nil

/-- C2: for every reachable session state under any sequence of join,
disconnect, startGame, hit, forfeit, powerup-grant and clock-tick
operations, every player's health lies in [0,100] and every player's
points are nonnegative.  (The claimed operation set join, hit, forfeit,
powerup-grant and clock-tick is a subset of the operations quantified
here.) -/
theorem c2_health_points_bounds (id mode : String) (ops : List Op) :
    healthPointsInv (runOps (createSession id mode) ops) :=
  healthPointsInv_runOps _ ops (healthPointsInv_createSession id mode)

/-! Admin consistency. -/

/-- The roster/admin consistency asserted by the spec: the admin is
null exactly when the player map is empty, and otherwise names a
present player. -/
def adminInv (s : Session) : Prop :=
  (s.admin = none ↔ s.players = []) ∧
  ∀ a, s.admin = some a → a ∈ s.players.map Prod.fst

theorem adminInv_joinPlayer (s : Session) (u c : String) (t : Option String)
    (ds : List Nat) (h : adminInv s) : adminInv (joinPlayer s u c t ds).1 := by
  unfold joinPlayer
  split
  · exact h
  · dsimp only
    by_cases ha : s.admin = none
    · rw [if_pos ha]
      unfold adminInv
      dsimp only
      constructor
      · simp [upsert_ne_nil]
      · intro a hsome
        rw [Option.some_inj.mp hsome.symm]
        exact keys_upsert_mem_self _ _ _
    · rw [if_neg ha]
      unfold adminInv
      dsimp only
      constructor
      · constructor
        · intro hnone
          exact absurd hnone ha
        · intro hnil
          exact absurd hnil (upsert_ne_nil _ _ _)
      · intro a hsome
        exact keys_upsert_mem_of_mem _ _ _ _ (h.2 a hsome)

theorem adminInv_disconnectPlayer (s : Session) (u : String)
    (h : adminInv s) : adminInv (disconnectPlayer s u).1 := by
  unfold disconnectPlayer
  dsimp only
  by_cases hadmin : s.admin = some u
  · rw [if_pos hadmin]
    unfold adminInv
    dsimp only
    cases hk : (eraseKey s.players u).map Prod.fst with
    | nil =>
      have hnil : eraseKey s.players u = [] := List.map_eq_nil_iff.mp hk
      constructor
      · simp [hnil]
      · intro a hsome
        simp at hsome
    | cons k rest =>
      constructor
      · constructor
        · intro hnone
          simp at hnone
        · intro hnil
          rw [hnil] at hk
          simp at hk
      · intro a hsome
        simp at hsome
        rw [← hsome]
        exact List.mem_cons_self _ _
  · rw [if_neg hadmin]
    unfold adminInv
    dsimp only
    cases ha : s.admin with
    | none =>
      have hnil : s.players = [] := h.1.mp ha
      constructor
      · simp [hnil, eraseKey]
      · intro a hsome
        simp at hsome
    | some a0 =>
      have hne : a0 ≠ u := fun hequ => hadmin (by rw [ha, hequ])
      have hmem : a0 ∈ (eraseKey s.players u).map Prod.fst :=
        keys_eraseKey_mem _ _ _ (h.2 a0 ha) hne
      constructor
      · constructor
        · intro hnone
          simp at hnone
        · intro hnil
          rw [hnil] at hmem
          simp at hmem
      · intro a hsome
        rw [← Option.some_inj.mp hsome]
        exact hmem

theorem keys_map_pair {β : Type} (ps : List (String × Player))
    (f : String × Player → String × β) (hf : ∀ kp, (f kp).1 = kp.1) :
    (ps.map f).map Prod.fst = ps.map Prod.fst := by
  induction ps with
  | nil => rfl
  | cons kp rest ih => simp [hf, ih]

/-- A session transform that keeps the admin field and the roster keys
keeps the admin consistency. -/
theorem adminInv_of_same (s s3 : Session) (ha : s3.admin = s.admin)
    (hk : s3.players.map Prod.fst = s.players.map Prod.fst)
    (h : adminInv s) : adminInv s3 := by
  constructor
  · rw [ha]
    constructor
    · intro hnone
      have := (h.1.mp hnone)
      have hknil : s3.players.map Prod.fst = [] := by rw [hk, this]; rfl
      exact List.map_eq_nil.mp hknil
    · intro hnil
      apply h.1.mpr
      apply List.map_eq_nil.mp
      rw [← hk, hnil]
      rfl
  · intro a hsome
    rw [hk]
    exact h.2 a (by rw [← ha]; exact hsome)

theorem handleHit_admin_keys (s : Session) (n c w : String) :
    (handleHit s n c w).1.admin = s.admin ∧
    (handleHit s n c w).1.players.map Prod.fst = s.players.map Prod.fst := by
  unfold handleHit
  split
  · exact ⟨rfl, rfl⟩
  · split
    · exact ⟨rfl, rfl⟩
    · split
      · exact ⟨rfl, rfl⟩
      · split
        · exact ⟨rfl, rfl⟩
        · split
          · exact ⟨rfl, rfl⟩
          · refine ⟨rfl, ?_⟩
            dsimp only
            split <;> simp [keys_updatePlayer]

theorem forfeitPlayer_admin_keys (s : Session) (u : String) :
    (forfeitPlayer s u).1.admin = s.admin ∧
    (forfeitPlayer s u).1.players.map Prod.fst = s.players.map Prod.fst := by
  unfold forfeitPlayer
  dsimp only
  split <;> simp [keys_updatePlayer]

theorem grantPowerup_admin_keys (s : Session) (u : String) (choice : Fin 3) :
    (grantPowerup s u choice).1.admin = s.admin ∧
    (grantPowerup s u choice).1.players.map Prod.fst = s.players.map Prod.fst := by
  unfold grantPowerup
  split
  · dsimp only
    split <;> simp [keys_updatePlayer]
  · exact ⟨rfl, rfl⟩

theorem sessionTick_admin_keys (s : Session) (now : Int) :
    (sessionTick s now).1.admin = s.admin ∧
    (sessionTick s now).1.players.map Prod.fst = s.players.map Prod.fst := by
  unfold sessionTick
  split
  · dsimp only
    split
    · refine ⟨rfl, ?_⟩
      refine (keys_map_pair _ _ ?_).trans (keys_map_pair _ _ ?_)
      · intro kp; rfl
      · intro kp; rfl
    · refine ⟨rfl, ?_⟩
      refine (keys_map_pair _ _ ?_).trans (keys_map_pair _ _ ?_)
      · intro kp; rfl
      · intro kp; rfl
  · exact ⟨rfl, rfl⟩

theorem adminInv_applyOp (s : Session) (op : Op)
    (h : adminInv s) : adminInv (applyOp s op) := by
  cases op with
  | join u c t ds => exact adminInv_joinPlayer s u c t ds h
  | disconnect u => exact adminInv_disconnectPlayer s u h
  | startGame u => exact adminInv_of_same _ _ rfl rfl h
  | hit a b c =>
    exact adminInv_of_same _ _ (handleHit_admin_keys s a b c).1
      (handleHit_admin_keys s a b c).2 h
  | forfeit u =>
    exact adminInv_of_same _ _ (forfeitPlayer_admin_keys s u).1
      (forfeitPlayer_admin_keys s u).2 h
  | grant u ch =>
    exact adminInv_of_same _ _ (grantPowerup_admin_keys s u ch).1
      (grantPowerup_admin_keys s u ch).2 h
  | tick now =>
    exact adminInv_of_same _ _ (sessionTick_admin_keys s now).1
      (sessionTick_admin_keys s now).2 h

theorem adminInv_runOps (s : Session) (ops : List Op)
    (h : adminInv s) : adminInv (runOps s ops) := by
  induction ops generalizing s with
  | nil => exact h
  | cons op rest ih => exact ih _ (adminInv_applyOp s op h)

theorem adminInv_createSession (id mode : String) :
    adminInv (createSession id mode) := by
  unfold createSession adminInv
  split <;> exact ⟨by simp, fun a ha => by simp at ha⟩

/-- C9: after every join and every disconnect (and any other session
operation), the admin names a present roster key whenever the roster is
non-empty and is null exactly when the roster is empty; moreover the
first player to join an adminless session becomes admin, and when the
admin disconnects the admin becomes some remaining player, or null if
none remain. -/
theorem c9_admin_consistency :
    (∀ (id mode : String) (ops : List Op),
      adminInv (runOps (createSession id mode) ops)) ∧
    (∀ (s : Session) (u c : String) (t : Option String) (ds : List Nat),
      s.admin = none → ¬(u = "" ∨ c = "" ∨ (s.mode = "team" ∧ t = none)) →
      (joinPlayer s u c t ds).1.admin =
        some (uniqueName (s.players.map Prod.fst) u ds (s.players.length + 1))) ∧
    (∀ (s : Session) (u : String), adminInv s → s.admin = some u →
      ((disconnectPlayer s u).1.players = [] → (disconnectPlayer s u).1.admin = none) ∧
      ((disconnectPlayer s u).1.players ≠ [] →
        ∃ w, (disconnectPlayer s u).1.admin = some w ∧
          w ∈ (disconnectPlayer s u).1.players.map Prod.fst)) := by
  refine ⟨?_, ?_, ?_⟩
  · intro id mode ops
    exact adminInv_runOps _ ops (adminInv_createSession id mode)
  · intro s u c t ds hnone hvalid
    unfold joinPlayer
    rw [if_neg hvalid]
    dsimp only
    rw [if_pos hnone]
  · intro s u hs hadmin
    have hd := adminInv_disconnectPlayer s u hs
    constructor
    · intro hnil
      exact hd.1.mpr hnil
    · intro hne
      cases hda : (disconnectPlayer s u).1.admin with
      | none => exact absurd (hd.1.mp hda) hne
      | some w => exact ⟨w, rfl, hd.2 w hda⟩

/-- Concrete instantiation of the admin-consistency theorem: "cable"
joins a fresh solo session and becomes admin; disconnecting the sole
admin leaves the admin null. -/
theorem c9_admin_consistency_witness :
    (joinPlayer (createSession "abcd" "solo") "cable" "red" none []).1.admin =
      some "cable" ∧
    ((disconnectPlayer (runOps (createSession "abcd" "solo")
        [Op.join "cable" "red" none []]) "cable").1.players = [] →
      (disconnectPlayer (runOps (createSession "abcd" "solo")
        [Op.join "cable" "red" none []]) "cable").1.admin = none) := by
  constructor
  · have h := c9_admin_consistency.2.1 (createSession "abcd" "solo") "cable" "red" none []
      (by decide) (by decide)
    rw [h]
    rfl
  · exact (c9_admin_consistency.2.2 _ "cable"
      (c9_admin_consistency.1 "abcd" "solo" [Op.join "cable" "red" none []])
      (by decide)).1

/-! Friendly fire. -/

/-- Shooter used in the friendly-fire scenario: team t1, color red. -/
def c1Zeke : Player :=
  { username := "zeke", color := "red", teamId := some "t1", hitsGiven := 0,
    hitsTaken := 0, points := 50, health := 100, activePowerups := [],
    position := { latitude := none, longitude := none, lastUpdated := none } }

/-- Target used in the friendly-fire scenario: same team t1, color blue. -/
def c1Cable : Player :=
  { username := "cable", color := "blue", teamId := some "t1", hitsGiven := 0,
    hitsTaken := 0, points := 50, health := 100, activePowerups := [],
    position := { latitude := none, longitude := none, lastUpdated := none } }

/-- A team-mode session in game state whose two players share team t1. -/
def c1Session : Session :=
  { id := "abcd", mode := "team", state := "game", admin := some "zeke",
    timeLeft := 100, persistTime := 300,
    players := [("zeke", c1Zeke), ("cable", c1Cable)],
    teams := [("t1", ["zeke", "cable"])], spectators := [], latestFrames := [] }

/-- C1 (amended): in the team-aware arbitration variant (part_001 lines
899-985) a hit whose shooter and located target share a team in a
team-mode session is a complete no-op: the session is returned
unchanged and nothing is broadcast.  The arbitration variant at
part_001 lines 682-758 has no friendly-fire guard and applies the hit
(see the counterexample). -/
theorem c1_friendly_fire_noop (s : Session) (sname color weapon : String)
    (shooter : Player) (tname : String) (target : Player)
    (hmode : s.mode = "team")
    (hs : lookupP s.players sname = some shooter)
    (ht : findByColor s.players color = some (tname, target))
    (hteam : shooter.teamId = target.teamId) :
    handleHitTeam s sname color weapon = (s, []) := by
  unfold handleHitTeam
  split
  · rfl
  · split
    · rfl
    · rename_i sh heq
      have hsh : shooter = sh := Option.some_inj.mp (hs.symm.trans heq)
      split
      · rfl
      · split
        · rfl
        · rename_i tn tg heq2
          have htg : (tname, target) = (tn, tg) := Option.some_inj.mp (ht.symm.trans heq2)
          split
          · rfl
          · have hteam2 : sh.teamId = tg.teamId := by
              have h1 : target = tg := congrArg Prod.snd htg
              rw [← hsh, ← h1]
              exact hteam
            rw [if_pos ⟨hmode, hteam2⟩]

/-- Instantiation of the friendly-fire no-op on the concrete two-player
team session. -/
theorem c1_friendly_fire_noop_witness :
    handleHitTeam c1Session "zeke" "blue" "pistol" = (c1Session, []) :=
  c1_friendly_fire_noop c1Session "zeke" "blue" "pistol" c1Zeke "cable" c1Cable
    rfl rfl rfl rfl

/-- C1 counterexample: in the arbitration variant at part_001 lines
682-758 (and server.js), the same same-team hit in a team-mode session
is NOT a no-op: the session changes and messages are broadcast, because
that variant never compares teams. -/
theorem c1_counterexample :
    c1Session.mode = "team" ∧
    lookupP c1Session.players "zeke" = some c1Zeke ∧
    findByColor c1Session.players "blue" = some ("cable", c1Cable) ∧
    c1Zeke.teamId = c1Cable.teamId ∧
    handleHit c1Session "zeke" "blue" "pistol" ≠ (c1Session, []) ∧
    (handleHit c1Session "zeke" "blue" "pistol").2 ≠ [] := by
  refine ⟨rfl, rfl, rfl, rfl, ?_, ?_⟩ <;> decide

/-! Starting the game. -/

/-- A solo lobby session whose admin is "zeke" and that also contains
the non-admin player "cable". -/
def c4Session : Session :=
  { id := "abcd", mode := "solo", state := "lobby", admin := some "zeke",
    timeLeft := 0, persistTime := 300,
    players := [("zeke", { c1Zeke with teamId := none }),
                ("cable", { c1Cable with teamId := none })],
    teams := [], spectators := [], latestFrames := [] }

/-- C4 (amended): the startGame case of the team-aware variant
(part_001 lines 1222-1236) is admin-gated: the admin's message moves
the session to game state with timeLeft 180 and broadcasts, and any
other sender leaves the session unchanged with no broadcast.  The
startGame handlers of websocket.js lines 110-117 and server.js lines
370-381 apply the transition for any joined sender with no admin check
(see the counterexample). -/
theorem c4_startGame_admin_gated (s : Session) (sender : String) :
    (s.admin = some sender →
      startGameTeam s sender =
        ({ s with state := "game", timeLeft := 180 },
         [Msg.startGame (getPlayerList { s with state := "game", timeLeft := 180 })
            (if s.mode = "team" then
              some (getTeams { s with state := "game", timeLeft := 180 })
             else none)])) ∧
    (s.admin ≠ some sender → startGameTeam s sender = (s, [])) := by
  constructor
  · intro h
    unfold startGameTeam
    rw [if_pos h]
  · intro h
    unfold startGameTeam
    rw [if_neg h]

/-- Instantiation of the admin gate on the concrete lobby session:
the admin's startGame flips the state, the non-admin's is ignored. -/
theorem c4_startGame_admin_gated_witness :
    (startGameTeam c4Session "zeke").1.state = "game" ∧
    (startGameTeam c4Session "zeke").1.timeLeft = 180 ∧
    startGameTeam c4Session "cable" = (c4Session, []) := by
  refine ⟨?_, ?_, ?_⟩
  · rw [(c4_startGame_admin_gated c4Session "zeke").1 rfl]
  · rw [(c4_startGame_admin_gated c4Session "zeke").1 rfl]
  · exact (c4_startGame_admin_gated c4Session "cable").2 (by decide)

/-- C4 counterexample: the websocket.js startGame handler applies the
transition for the joined non-admin sender "cable" and broadcasts, so a
non-admin startGame does not leave the session unchanged. -/
theorem c4_counterexample :
    c4Session.admin = some "zeke" ∧
    (lookupP c4Session.players "cable").isSome = true ∧
    c4Session.admin ≠ some "cable" ∧
    c4Session.state = "lobby" ∧
    (startGameWs c4Session "cable").1.state = "game" ∧
    (startGameWs c4Session "cable").1.timeLeft = 180 ∧
    (startGameWs c4Session "cable").2 ≠ [] := by
  refine ⟨rfl, rfl, ?_, rfl, rfl, rfl, ?_⟩ <;> decide

/-! Session reaping. -/

/-- A session with no players but one connected spectator, one second
from the end of its persist-countdown. -/
def c5Spectated : Session :=
  { id := "wxyz", mode := "solo", state := "lobby", admin := none,
    timeLeft := 0, persistTime := 1, players := [], teams := [],
    spectators := ["spec1"], latestFrames := [] }

/-- A session with no players and no spectators, one second from the
end of its persist-countdown. -/
def c5Empty : Session :=
  { id := "qrst", mode := "solo", state := "lobby", admin := none,
    timeLeft := 0, persistTime := 1, players := [], teams := [],
    spectators := [], latestFrames := [] }

/-- C5: evaluation of the server.js reap step at the failing input.  A
session with zero players and ONE spectator has its countdown
decremented and is destroyed (`none`), although the claim requires the
countdown to reset and the session to survive whenever a spectator is
present; and a session with zero players and zero spectators has its
countdown reset forever instead of running down.  The guard at
server.js line 118 reads `Object.keys(session.spectators).length` as a
truthy value instead of comparing it with zero.  (The same step in
part_001 lines 517-536, `reapStep`, implements the claimed behavior.) -/
theorem c5_srv_reap_bug :
    (c5Spectated.players = [] ∧ c5Spectated.spectators ≠ [] ∧
      srvReapStep c5Spectated = none) ∧
    (c5Empty.players = [] ∧ c5Empty.spectators = [] ∧
      srvReapStep c5Empty = some { c5Empty with persistTime := SESSION_PERSIST_TIME }) := by
  refine ⟨⟨rfl, ?_, ?_⟩, rfl, rfl, ?_⟩ <;> decide

/-- The part_001 reap step resets the countdown whenever a player or a
spectator is present. -/
theorem reapStep_presence_resets (s : Session)
    (h : ¬(s.players = [] ∧ s.spectators = [])) :
    reapStep s = some { s with persistTime := SESSION_PERSIST_TIME } := by
  unfold reapStep
  rw [if_neg h]

/-! Powerup expiry. -/

/-- C6 counterexample: an instakill effect with remaining duration 1 is
decremented to 0 by the expiry step but stays in the activePowerups
map; it is not removed as the claim asserts. -/
theorem c6_counterexample :
    tickPowerups [("instakill", 1)] = [("instakill", 0)] ∧
    "instakill" ∈ (tickPowerups [("instakill", 1)]).map Prod.fst := by
  refine ⟨?_, ?_⟩ <;> decide

/-- C6 (amended): on each expiry step every stored effect with positive
remaining duration is decremented by one and entries at zero are left
unchanged; the key set of activePowerups is preserved, so an effect
that reaches zero remains as an entry with remaining duration 0 rather
than being removed (the strictly-positive activity checks of hit
arbitration then treat it as expired). -/
theorem c6_powerup_decrement (ap : List (String × Int)) :
    (tickPowerups ap).map Prod.fst = ap.map Prod.fst ∧
    ∀ k, lookupP (tickPowerups ap) k =
      (lookupP ap k).map fun v => if 0 < v then v - 1 else v := by
  induction ap with
  | nil => exact ⟨rfl, fun k => rfl⟩
  | cons kv rest ih =>
    obtain ⟨k0, v0⟩ := kv
    constructor
    · rw [tickPowerups]
      by_cases h0 : 0 < v0
      · rw [if_pos h0]
        simp [ih.1]
      · rw [if_neg h0]
        simp [ih.1]
    · intro k
      rw [tickPowerups]
      by_cases h0 : 0 < v0
      · rw [if_pos h0]
        by_cases hk : k0 = k
        · simp [lookupP, hk, h0]
        · simp [lookupP, hk, ih.2 k]
      · rw [if_neg h0]
        by_cases hk : k0 = k
        · simp [lookupP, hk, h0]
        · simp [lookupP, hk, ih.2 k]

/-! Fan-out delivery. -/

theorem mem_sendLoopGuarded (conns : List Conn) (c : Conn)
    (hmem : c ∈ conns) (hopen : c.readyState = 1) :
    c.id ∈ sendLoopGuarded conns := by
  induction conns with
  | nil => simp at hmem
  | cons c0 rest ih =>
    by_cases h0 : c0.readyState = 1
    · rw [sendLoopGuarded, if_pos h0]
      rcases List.mem_cons.mp hmem with h | h
      · rw [h]
        exact List.mem_cons_self _ _
      · exact List.mem_cons_of_mem _ (ih h)
    · rw [sendLoopGuarded, if_neg h0]
      rcases List.mem_cons.mp hmem with h | h
      · rw [h] at hopen
        exact absurd hopen h0
      · exact ih h

theorem sendLoopUnguarded_attempts_all (conns : List Conn) :
    (sendLoopUnguarded conns).1 = conns.map Conn.id := by
  induction conns with
  | nil => rfl
  | cons c0 rest ih =>
    rw [sendLoopUnguarded]
    dsimp only
    rw [ih]
    rfl

theorem mem_sendLoopUnguarded_delivered (conns : List Conn) (c : Conn)
    (hmem : c ∈ conns) (hopen : c.readyState = 1) :
    c.id ∈ (sendLoopUnguarded conns).2 := by
  induction conns with
  | nil => simp at hmem
  | cons c0 rest ih =>
    rw [sendLoopUnguarded]
    dsimp only
    by_cases h0 : c0.readyState = 1
    · rw [if_pos h0]
      rcases List.mem_cons.mp hmem with h | h
      · rw [h]
        exact List.mem_cons_self _ _
      · exact List.mem_cons_of_mem _ (ih h)
    · rw [if_neg h0]
      rcases List.mem_cons.mp hmem with h | h
      · rw [h] at hopen
        exact absurd hopen h0
      · exact ih h

/-- C7: in every fan-out call, delivery is attempted on each recipient
independently and a closed or failing peer does not prevent delivery to
the remaining recipients.  The unguarded sendToAll of websocket.js
lines 157-165 (and server.js lines 66-78) invokes send on every
connection in order -- a send on a non-OPEN ws socket without a
callback returns without raising, so the loop never aborts -- and every
OPEN recipient receives the message regardless of the state of the
peers before it.  The guarded sendToClients of part_001 lines 812-828
skips non-OPEN connections and likewise reaches every OPEN player and
spectator.  (The part_002 class-based broadcast additionally wraps each
send in a per-recipient try/catch.) -/
theorem c7_fanout_independent (conns playerConns spectatorConns : List Conn)
    (c : Conn) (hopen : c.readyState = 1) :
    (sendLoopUnguarded conns).1 = conns.map Conn.id ∧
    (c ∈ conns → c.id ∈ (sendLoopUnguarded conns).2) ∧
    (c ∈ playerConns →
      c.id ∈ sendToClientsGuarded playerConns spectatorConns true true) ∧
    (c ∈ spectatorConns →
      c.id ∈ sendToClientsGuarded playerConns spectatorConns true true) := by
  refine ⟨sendLoopUnguarded_attempts_all conns, ?_, ?_, ?_⟩
  · intro hmem
    exact mem_sendLoopUnguarded_delivered conns c hmem hopen
  · intro hmem
    unfold sendToClientsGuarded
    exact List.mem_append_left _ (mem_sendLoopGuarded _ _ hmem hopen)
  · intro hmem
    unfold sendToClientsGuarded
    exact List.mem_append_right _ (mem_sendLoopGuarded _ _ hmem hopen)

/-- Instantiation of fan-out independence: with a closed first
connection, the unguarded loop still attempts both sends and delivers
to the open second recipient, and the guarded fan-out reaches the open
player and the open spectator. -/
theorem c7_fanout_independent_witness :
    (sendLoopUnguarded
      [{ id := "p1", readyState := 3 }, { id := "p2", readyState := 1 }]).1 =
      ["p1", "p2"] ∧
    "p2" ∈ (sendLoopUnguarded
      [{ id := "p1", readyState := 3 }, { id := "p2", readyState := 1 }]).2 ∧
    "p2" ∈ sendToClientsGuarded
      [{ id := "p1", readyState := 3 }, { id := "p2", readyState := 1 }]
      [{ id := "s1", readyState := 1 }] true true ∧
    "s1" ∈ sendToClientsGuarded
      [{ id := "p1", readyState := 3 }, { id := "p2", readyState := 1 }]
      [{ id := "s1", readyState := 1 }] true true := by
  have h := c7_fanout_independent
    [{ id := "p1", readyState := 3 }, { id := "p2", readyState := 1 }]
    [{ id := "p1", readyState := 3 }, { id := "p2", readyState := 1 }]
    [{ id := "s1", readyState := 1 }]
    { id := "p2", readyState := 1 } rfl
  have h2 := c7_fanout_independent
    [{ id := "p1", readyState := 3 }, { id := "p2", readyState := 1 }]
    [{ id := "p1", readyState := 3 }, { id := "p2", readyState := 1 }]
    [{ id := "s1", readyState := 1 }]
    { id := "s1", readyState := 1 } rfl
  exact ⟨h.1, h.2.1 (by decide), h.2.2.1 (by decide), h2.2.2.2 (by decide)⟩

/-! Pistol hit outcome. -/

/-- C3 (amended): in the arbitration variant at part_001 lines 696-712
(and server.js lines 571-588), a pistol hit without active instakill on
a valid, non-eliminated, non-invincible enemy target with health 100
and points 50 yields target.health = 90 = max(0, 100 - 10),
target.points = 44 = 50 - 6, shooter.health = min(100, shooter.health +
10) and shooter.points increased by 3 = floor(6/2).  In the team-aware
variant at part_001 line 923 the shooter instead heals +5 (see the
counterexample). -/
theorem c3_pistol_hit (s : Session) (sname color : String) (shooter : Player)
    (tname : String) (target : Player)
    (hcyan : ¬color = "cyan")
    (hs : lookupP s.players sname = some shooter)
    (ht : findByColor s.players color = some (tname, target))
    (hts : lookupP s.players tname = some target)
    (hne : ¬tname = sname)
    (hsp : 0 < shooter.points) (hshh : 10 < shooter.health)
    (hnoik : powerupVal shooter.activePowerups "instakill" ≤ 0)
    (hth : target.health = 100) (htp : target.points = 50)
    (hinv : powerupVal target.activePowerups "invincibility" ≤ 0) :
    (getP (handleHit s sname color "pistol").1.players tname).health = 90 ∧
    (getP (handleHit s sname color "pistol").1.players tname).points = 44 ∧
    (getP (handleHit s sname color "pistol").1.players sname).health =
      min 100 (shooter.health + 10) ∧
    (getP (handleHit s sname color "pistol").1.players sname).points =
      shooter.points + 3 := by
  have hne2 : ¬sname = tname := fun h => hne h.symm
  unfold handleHit
  split
  · rename_i hcy
    exact absurd hcy hcyan
  · split
    · rename_i heq
      rw [hs] at heq
      cases heq
    · rename_i sh heq
      rw [hs] at heq
      obtain rfl : sh = shooter := (Option.some_inj.mp heq).symm
      split
      · rename_i hcon
        omega
      · split
        · rename_i heq2
          rw [ht] at heq2
          cases heq2
        · rename_i tn tg heq2
          rw [ht] at heq2
          obtain ⟨rfl, rfl⟩ : tname = tn ∧ target = tg := by
            have := Option.some_inj.mp heq2
            exact ⟨congrArg Prod.fst this, congrArg Prod.snd this⟩
          split
          · rename_i hcon
            rcases hcon with h | h | h <;> omega
          · dsimp only
            rw [if_neg ?noik]
            case noik =>
              unfold getP
              rw [lookupP_updatePlayer, if_pos rfl, lookupP_updatePlayer, if_neg hne, hs]
              simp only [Option.map_some', Option.getD_some]
              try dsimp only
              omega
            unfold getP
            simp only [lookupP_updatePlayer, hne, hne2, hs, hts, eq_self_iff_true,
              if_true, if_false, Option.map_some', Option.getD_some]
            have hwd : weaponDamage "pistol" = 6 := rfl
            refine ⟨?_, ?_, ?_, ?_⟩
            · try dsimp only
              omega
            · try dsimp only
              omega
            · dsimp only
            · try dsimp only
              rw [hwd]
              norm_num

/-- Shooter for the pistol scenario: solo mode, health 50, points 50,
no powerups. -/
def c3Zeke : Player :=
  { username := "zeke", color := "red", teamId := none, hitsGiven := 0,
    hitsTaken := 0, points := 50, health := 50, activePowerups := [],
    position := { latitude := none, longitude := none, lastUpdated := none } }

/-- Target for the pistol scenario: health 100, points 50. -/
def c3Cable : Player :=
  { username := "cable", color := "blue", teamId := none, hitsGiven := 0,
    hitsTaken := 0, points := 50, health := 100, activePowerups := [],
    position := { latitude := none, longitude := none, lastUpdated := none } }

/-- Solo session in game state for the pistol scenario. -/
def c3Session : Session :=
  { id := "abcd", mode := "solo", state := "game", admin := some "zeke",
    timeLeft := 100, persistTime := 300,
    players := [("zeke", c3Zeke), ("cable", c3Cable)],
    teams := [], spectators := [], latestFrames := [] }

/-- Instantiation of the pistol-hit outcome: cable drops to health 90
and points 44, zeke heals to 60 = min(100, 50 + 10) and gains 3
points. -/
theorem c3_pistol_hit_witness :
    (getP (handleHit c3Session "zeke" "blue" "pistol").1.players "cable").health = 90 ∧
    (getP (handleHit c3Session "zeke" "blue" "pistol").1.players "cable").points = 44 ∧
    (getP (handleHit c3Session "zeke" "blue" "pistol").1.players "zeke").health = 60 ∧
    (getP (handleHit c3Session "zeke" "blue" "pistol").1.players "zeke").points = 53 := by
  have h := c3_pistol_hit c3Session "zeke" "blue" c3Zeke "cable" c3Cable
    (by decide) (by decide) (by decide) (by decide) (by decide) (by decide)
    (by decide) (by decide) rfl rfl (by decide)
  refine ⟨h.1, h.2.1, ?_, ?_⟩
  · rw [h.2.2.1]
    decide
  · rw [h.2.2.2]
    decide

/-- Shooter on team t1 for the team-variant heal counterexample. -/
def c3TeamZeke : Player := { c3Zeke with teamId := some "t1" }

/-- Target on the opposing team t2. -/
def c3TeamCable : Player := { c3Cable with teamId := some "t2" }

/-- Team session in game state with the two players on opposing
teams. -/
def c3TeamSession : Session :=
  { id := "abcd", mode := "team", state := "game", admin := some "zeke",
    timeLeft := 100, persistTime := 300,
    players := [("zeke", c3TeamZeke), ("cable", c3TeamCable)],
    teams := [("t1", ["zeke"]), ("t2", ["cable"])], spectators := [],
    latestFrames := [] }

/-- C3 counterexample: on the team-aware arbitration variant (part_001
line 923) the same pistol hit heals the shooter by 5, not by 10: zeke
at health 50 ends at 55, not at min(100, 50 + 10) = 60. -/
theorem c3_counterexample :
    (getP (handleHitTeam c3TeamSession "zeke" "blue" "pistol").1.players "zeke").health = 55 ∧
    ¬(getP (handleHitTeam c3TeamSession "zeke" "blue" "pistol").1.players "zeke").health =
        min 100 (c3TeamZeke.health + 10) := by
  refine ⟨?_, ?_⟩ <;> decide

/-! Instakill. -/

/-- C8: in the arbitration chain (part_001 lines 699-702, identically
lines 926-929), a shooter with an active instakill effect against a
valid, non-eliminated, non-invincible, distinct target bypasses the
weapon damage table: the target's points become 0 and the shooter
gains floor(prior target points / 2), whatever the weapon. -/
theorem c8_instakill_points (s : Session) (sname color weapon : String)
    (shooter : Player) (tname : String) (target : Player)
    (hcyan : ¬color = "cyan")
    (hs : lookupP s.players sname = some shooter)
    (ht : findByColor s.players color = some (tname, target))
    (hts : lookupP s.players tname = some target)
    (hne : ¬tname = sname)
    (hsp : 0 < shooter.points) (hshh : 10 < shooter.health)
    (hik : 0 < powerupVal shooter.activePowerups "instakill")
    (htp0 : 0 < target.points) (hth10 : 10 < target.health)
    (hinv : powerupVal target.activePowerups "invincibility" ≤ 0) :
    (getP (handleHit s sname color weapon).1.players tname).points = 0 ∧
    (getP (handleHit s sname color weapon).1.players sname).points =
      shooter.points + target.points / 2 := by
  have hne2 : ¬sname = tname := fun h => hne h.symm
  unfold handleHit
  split
  · rename_i hcy
    exact absurd hcy hcyan
  · split
    · rename_i heq
      rw [hs] at heq
      cases heq
    · rename_i sh heq
      rw [hs] at heq
      obtain rfl : sh = shooter := (Option.some_inj.mp heq).symm
      split
      · rename_i hcon
        omega
      · split
        · rename_i heq2
          rw [ht] at heq2
          cases heq2
        · rename_i tn tg heq2
          rw [ht] at heq2
          obtain ⟨rfl, rfl⟩ : tname = tn ∧ target = tg := by
            have := Option.some_inj.mp heq2
            exact ⟨congrArg Prod.fst this, congrArg Prod.snd this⟩
          split
          · rename_i hcon
            rcases hcon with h | h | h <;> omega
          · dsimp only
            rw [if_pos ?ik]
            case ik =>
              unfold getP
              rw [lookupP_updatePlayer, if_pos rfl, lookupP_updatePlayer, if_neg hne, hs]
              simp only [Option.map_some', Option.getD_some]
              try dsimp only
              omega
            unfold getP
            simp only [lookupP_updatePlayer, hne, hne2, hs, hts, eq_self_iff_true,
              if_true, if_false, Option.map_some', Option.getD_some]
            exact ⟨trivial, trivial⟩

/-- Shooter holding an active instakill effect (5 seconds left),
points 50. -/
def c8Zeke : Player :=
  { username := "zeke", color := "red", teamId := none, hitsGiven := 0,
    hitsTaken := 0, points := 50, health := 50,
    activePowerups := [("instakill", 5)],
    position := { latitude := none, longitude := none, lastUpdated := none } }

/-- Target with 30 points for the instakill scenario. -/
def c8Cable : Player :=
  { username := "cable", color := "blue", teamId := none, hitsGiven := 0,
    hitsTaken := 0, points := 30, health := 100, activePowerups := [],
    position := { latitude := none, longitude := none, lastUpdated := none } }

/-- Solo session in game state for the instakill scenario. -/
def c8Session : Session :=
  { id := "abcd", mode := "solo", state := "game", admin := some "zeke",
    timeLeft := 100, persistTime := 300,
    players := [("zeke", c8Zeke), ("cable", c8Cable)],
    teams := [], spectators := [], latestFrames := [] }

/-- Instantiation of the instakill outcome: the target at 30 points
drops to 0 and the shooter gains floor(30/2) = 15, ending at 65. -/
theorem c8_instakill_points_witness :
    (getP (handleHit c8Session "zeke" "blue" "shotgun").1.players "cable").points = 0 ∧
    (getP (handleHit c8Session "zeke" "blue" "shotgun").1.players "zeke").points = 65 := by
  have h := c8_instakill_points c8Session "zeke" "blue" "shotgun" c8Zeke "cable" c8Cable
    (by decide) (by decide) (by decide) (by decide) (by decide) (by decide)
    (by decide) (by decide) (by decide) (by decide) (by decide)
  refine ⟨h.1, ?_⟩
  rw [h.2]
  decide

/-! Camera frames. -/

/-- C10: the cameraFrame handler (part_001 lines 378-394 and lines
1244-1263) stores the received frame under the sender, assigns a
carried health value verbatim to the sender's player with no range
check or clamping, and changes nothing else in the session: every
other player is untouched, and every other session field is equal. -/
theorem c10_cameraFrame_verbatim (s : Session) (sender frame : String) (h : Int)
    (p : Player) (hp : lookupP s.players sender = some p) :
    lookupP (handleCameraFrame s sender frame (some h)).1.players sender =
      some { p with health := h } ∧
    (∀ u, ¬sender = u →
      lookupP (handleCameraFrame s sender frame (some h)).1.players u =
        lookupP s.players u) ∧
    (handleCameraFrame s sender frame (some h)).1.latestFrames =
      upsert s.latestFrames sender frame ∧
    (handleCameraFrame s sender frame (some h)).1.id = s.id ∧
    (handleCameraFrame s sender frame (some h)).1.mode = s.mode ∧
    (handleCameraFrame s sender frame (some h)).1.state = s.state ∧
    (handleCameraFrame s sender frame (some h)).1.admin = s.admin ∧
    (handleCameraFrame s sender frame (some h)).1.timeLeft = s.timeLeft ∧
    (handleCameraFrame s sender frame (some h)).1.persistTime = s.persistTime ∧
    (handleCameraFrame s sender frame (some h)).1.teams = s.teams ∧
    (handleCameraFrame s sender frame (some h)).1.spectators = s.spectators := by
  unfold handleCameraFrame
  dsimp only
  rw [if_pos (by rw [hp]; rfl)]
  refine ⟨?_, ?_, rfl, rfl, rfl, rfl, rfl, rfl, rfl, rfl, rfl⟩
  · rw [lookupP_updatePlayer, if_pos rfl, hp]
    rfl
  · intro u hu
    rw [lookupP_updatePlayer, if_neg hu]

/-- Player whose connection sends the camera frame. -/
def c10Zeke : Player :=
  { username := "zeke", color := "red", teamId := none, hitsGiven := 0,
    hitsTaken := 0, points := 50, health := 100, activePowerups := [],
    position := { latitude := none, longitude := none, lastUpdated := none } }

/-- Session receiving the camera frame. -/
def c10Session : Session :=
  { id := "abcd", mode := "solo", state := "game", admin := some "zeke",
    timeLeft := 100, persistTime := 300, players := [("zeke", c10Zeke)],
    teams := [], spectators := ["spec1"], latestFrames := [] }

/-- Instantiation with an out-of-range health value: a single
cameraFrame message sets the sender's stored health to 250. -/
theorem c10_cameraFrame_verbatim_witness :
    lookupP (handleCameraFrame c10Session "zeke" "frameData" (some 250)).1.players "zeke" =
      some { c10Zeke with health := 250 } ∧
    ¬(250 : Int) ≤ 100 := by
  refine ⟨?_, by decide⟩
  exact (c10_cameraFrame_verbatim c10Session "zeke" "frameData" 250 c10Zeke (by decide)).1
